import Mathlib

/-!
Verification of the QuizGo spaced-repetition scheduler.

Shallow embedding of the study logic of `backend/internal/api/handlers`
(study handler: `UpdateCardProgress`, `GetNextCards`, `GetStudyStats`)
and the `CardProgress` model.

Modelling conventions:
* Go `float64` is modelled by `ℚ` (the SM-2 constants 0.1, 0.08, 0.02, 1.3,
  2.5 are exact rationals; all comparisons and clamps in the code are robust).
* Go `int` is modelled by `ℤ`; Go `uint` identifiers by `Nat`.
* `time.Time` is modelled by `ℚ`: the integer part `⌊t⌋` is the calendar-day
  number (what SQLite `date()` extracts), the fractional part the time of
  day.  `AddDate(0, 0, n)` becomes `t + n`, `Before` becomes `<`, and
  "on or before the last nanosecond of the current day" is `< ⌊now⌋ + 1`
  (up to the sub-nanosecond instants that `time.Time` cannot represent,
  which no comparison in the code can observe).
* Go `int(x)` on a `float64` truncates toward zero, modelled by `truncQ`.
-/

namespace QuizGo

/-- `models.CardProgress` (schema in `internal/models`): one spaced-repetition
progress record per (user, card) pair. -/
structure CardProgress where
  UserID : Nat
  CardID : Nat
  EaseFactor : ℚ
  Interval : ℤ
  NextReviewDate : ℚ
  ReviewCount : ℤ
  CorrectCount : ℤ
  LastReviewedAt : ℚ
  Status : String
deriving Repr, DecidableEq

/-- Go `int(x)` conversion from `float64`: truncation toward zero. -/
def truncQ (q : ℚ) : ℤ :=
  if 0 ≤ q then ⌊q⌋ else -⌊-q⌋

/-- The fresh record `UpdateCardProgress` creates when no progress row exists
for the (user, card) pair (zero `time.Time` is modelled as instant 0). -/
def initialProgress (userID cardID : Nat) : CardProgress :=
  { UserID := userID
    CardID := cardID
    EaseFactor := 5/2
    Interval := 0
    NextReviewDate := 0
    ReviewCount := 0
    CorrectCount := 0
    LastReviewedAt := 0
    Status := "new" }

/-- The SM-2 ease-factor update of `UpdateCardProgress`:
`ef + (0.1 - (5-perf)*(0.08 + (5-perf)*0.02))`, clamped below at 1.3. -/
def updateEaseFactor (ef : ℚ) (performance : ℤ) : ℚ :=
  let e := ef + (1/10 - (5 - (performance : ℚ)) * (8/100 + (5 - (performance : ℚ)) * (2/100)))
  if e < 13/10 then 13/10 else e

/-- Core of the handler `UpdateCardProgress`: given the prior progress record
(or `none` when no row exists), the graded performance and the current time,
compute the record that is persisted.  Mirrors the Go statement order: the
ease factor is updated first, then the new interval is computed from the
*old* interval and the *new* ease factor, then status, interval and
`next_review_date` are assigned. -/
def UpdateCardProgress (prior : Option CardProgress) (userID cardID : Nat)
    (performance : ℤ) (now : ℚ) : CardProgress :=
  let p0 := prior.getD (initialProgress userID cardID)
  let p1 := { p0 with LastReviewedAt := now, ReviewCount := p0.ReviewCount + 1 }
  let p2 := if performance ≥ 3 then { p1 with CorrectCount := p1.CorrectCount + 1 } else p1
  let p3 := { p2 with EaseFactor := updateEaseFactor p2.EaseFactor performance }
  if performance < 3 then
    { p3 with Status := "learning", Interval := 1, NextReviewDate := now + 1 }
  else
    let newInterval : ℤ :=
      if p3.Interval = 0 then 1
      else if p3.Interval = 1 then 6
      else truncQ ((p3.Interval : ℚ) * p3.EaseFactor)
    let p4 :=
      if p3.Status = "new" then { p3 with Status := "learning" }
      else if newInterval > 21 then { p3 with Status := "review" }
      else p3
    { p4 with Interval := newInterval, NextReviewDate := now + (newInterval : ℚ) }

/-- A sequence of grading events applied from the no-record state:
each event persists its record, which is the prior record of the next. -/
def applyGradings (userID cardID : Nat) (gs : List (ℤ × ℚ)) : Option CardProgress :=
  gs.foldl (fun acc g => some (UpdateCardProgress acc userID cardID g.1 g.2)) none

/-- `models.FlashCard`, reduced to its identifier (the only field the
scheduler logic reads). -/
structure FlashCard where
  ID : Nat
deriving Repr, DecidableEq

/-- The `progressMap` built by `GetNextCards`: card id → its progress record,
a later list entry overwriting an earlier one with the same `CardID`. -/
def buildProgressMap (progresses : List CardProgress) : Nat → Option CardProgress :=
  progresses.foldl (fun m p => fun id => if id = p.CardID then some p else m id)
    (fun _ => none)

/-- The bucket `GetNextCards` assigns to a card: no record → `"new"`;
`NextReviewDate.Before(now)` → `"due"`; otherwise → `"learning"`. -/
def bucketOf (progressMap : Nat → Option CardProgress) (now : ℚ) (card : FlashCard) :
    String :=
  match progressMap card.ID with
  | none => "new"
  | some p => if p.NextReviewDate < now then "due" else "learning"

/-- One element of the `cards` array `GetNextCards` returns: the card, its
progress record (or `nil` for a new card) and the bucket tag. -/
structure BatchEntry where
  card : FlashCard
  progress : Option CardProgress
  status : String
deriving Repr, DecidableEq

/-- The two success responses of `GetNextCards`: the empty-deck response
(`cards: [], message: "No cards in this deck"`) and the ordinary batch with
its three bucket counts. -/
inductive GetNextCardsResult where
  | emptyDeck (message : String)
  | batch (cards : List BatchEntry) (due_count new_count learning_count : Nat)
deriving Repr, DecidableEq

/-- One of the two `for` loops filling `cardsToReturn`: walk the bucket list,
stop as soon as `remainingLimit <= 0`, emit one entry and decrement the limit
per card.  Returns the emitted entries and the remaining limit. -/
def selectLoop (mk : FlashCard → BatchEntry) :
    List FlashCard → ℤ → List BatchEntry × ℤ
  | [], rem => ([], rem)
  | c :: cs, rem =>
    if rem ≤ 0 then ([], rem)
    else
      let rest := selectLoop mk cs (rem - 1)
      (mk c :: rest.1, rest.2)

/-- Core of the handler `GetNextCards`: given the deck's cards, the user's
progress records for them, the requested limit and the current time, produce
the study batch.  A limit `<= 0` defaults to 20; an empty deck short-circuits
to the empty-deck response before any progress record is consulted; otherwise
cards are bucketed and the batch takes due cards first, then new cards, up to
the limit; learning cards are only counted. -/
def GetNextCards (cards : List FlashCard) (progresses : List CardProgress)
    (reqLimit : ℤ) (now : ℚ) : GetNextCardsResult :=
  let limit : ℤ := if reqLimit ≤ 0 then 20 else reqLimit
  if cards = [] then
    .emptyDeck "No cards in this deck"
  else
    let pm := buildProgressMap progresses
    let dueCards := cards.filter (fun c => bucketOf pm now c = "due")
    let newCards := cards.filter (fun c => bucketOf pm now c = "new")
    let learningCards := cards.filter (fun c => bucketOf pm now c = "learning")
    let dueSel := selectLoop (fun c => ⟨c, pm c.ID, "due"⟩) dueCards limit
    let newSel := selectLoop (fun c => ⟨c, none, "new"⟩) newCards dueSel.2
    .batch (dueSel.1 ++ newSel.1) dueCards.length newCards.length learningCards.length

/-- One row of the `daily_activity` array: a calendar day and the number of
progress records last reviewed on that day. -/
structure DailyActivity where
  date : ℤ
  reviews : Nat
deriving Repr, DecidableEq

/-- Insert into an ascending list (model of SQL `ORDER BY ... ASC`). -/
def insertAsc (x : ℤ) : List ℤ → List ℤ
  | [] => [x]
  | y :: ys => if x ≤ y then x :: y :: ys else y :: insertAsc x ys

/-- Sort ascending (model of SQL `ORDER BY ... ASC`). -/
def sortAsc : List ℤ → List ℤ
  | [] => []
  | x :: xs => insertAsc x (sortAsc xs)

/-- The raw daily-activity query of `GetStudyStats`: filter the records to
`last_reviewed_at >= startOfWeek`, group by calendar day (`date()`), count
per day, ordered by day ascending.  Note the query filters by user and date
range only. -/
def dailyActivity (records : List CardProgress) (startOfWeek : ℚ) :
    List DailyActivity :=
  let days := (records.filter (fun p => startOfWeek ≤ p.LastReviewedAt)).map
    (fun p => ⌊p.LastReviewedAt⌋)
  (sortAsc days.dedup).map (fun d => ⟨d, days.count d⟩)

/-- The `stats` object `GetStudyStats` returns. -/
structure StatsSummary where
  new_count : Nat
  learning_count : Nat
  review_count : Nat
  due_today : Nat
  total_reviewed : ℤ
  total_correct : ℤ
  accuracy : ℚ
  daily_activity : List DailyActivity
deriving Repr, DecidableEq

/-- Core of the handler `GetStudyStats`: reduce the user's progress records
to summary statistics.  `deckOf` maps a card id to its deck id (the
`flash_cards` join); a `deckID > 0` adds that deck's filter.

The handler builds one GORM query value
(`query := h.db.Model(&CardProgress{}).Where("user_id = ?", ...)`, plus the
deck join) and reuses it for every statistic.  After the first chain call
the value's clone flag is spent, so each later `Where` mutates the shared
statement in place and its condition stays for all subsequent queries — the
documented GORM reuse hazard (no `Session` call resets it).  The embedding
threads that accumulation explicitly: the new-count query filters the base
set `q0`; the learning-count query runs with `status = 'new'` already
accumulated, so it filters `q1`; the review-count query filters `q2`; the
two `SUM` scans and the due-today count run with all three status
conditions accumulated, so they range over `q3`.  Only the raw-SQL
daily-activity query runs on a fresh connection, filtered by user and date
range alone. -/
def GetStudyStats (records : List CardProgress) (deckOf : Nat → Nat)
    (deckID : Nat) (now : ℚ) : StatsSummary :=
  let q0 := if deckID > 0 then records.filter (fun p => deckOf p.CardID = deckID)
            else records
  let q1 := q0.filter (fun p => p.Status = "new")
  let q2 := q1.filter (fun p => p.Status = "learning")
  let q3 := q2.filter (fun p => p.Status = "review")
  let totalReviewed := (q3.map (fun p => p.ReviewCount)).sum
  let totalCorrect := (q3.map (fun p => p.CorrectCount)).sum
  { new_count := q1.length
    learning_count := q2.length
    review_count := q3.length
    due_today := (q3.filter (fun p => p.NextReviewDate < ((⌊now⌋ + 1 : ℤ) : ℚ))).length
    total_reviewed := totalReviewed
    total_correct := totalCorrect
    accuracy := if totalReviewed > 0 then (totalCorrect : ℚ) / (totalReviewed : ℚ) * 100
                else 0
    daily_activity := dailyActivity records ((⌊now⌋ - 7 : ℤ) : ℚ) }

/-! ### Helper lemmas about the state machine -/

/-- The record `prior.getD (initialProgress u c)` the grading event starts
from. -/
def priorOf (prior : Option CardProgress) (userID cardID : Nat) : CardProgress :=
  prior.getD (initialProgress userID cardID)

theorem updateEaseFactor_eq_max (ef : ℚ) (performance : ℤ) :
    updateEaseFactor ef performance
      = max (ef + (1/10 - (5 - (performance : ℚ)) * (8/100 + (5 - (performance : ℚ)) * (2/100))))
          (13/10) := by
  unfold updateEaseFactor
  dsimp only
  split
  · rw [max_eq_right (le_of_lt (by assumption))]
  · rw [max_eq_left (le_of_not_lt (by assumption))]

theorem updateEaseFactor_ge (ef : ℚ) (performance : ℤ) :
    13/10 ≤ updateEaseFactor ef performance := by
  rw [updateEaseFactor_eq_max]
  exact le_max_right _ _

theorem UpdateCardProgress_EaseFactor (prior : Option CardProgress)
    (userID cardID : Nat) (performance : ℤ) (now : ℚ) :
    (UpdateCardProgress prior userID cardID performance now).EaseFactor
      = updateEaseFactor (priorOf prior userID cardID).EaseFactor performance := by
  unfold UpdateCardProgress priorOf
  dsimp only
  split_ifs <;> rfl

theorem UpdateCardProgress_EaseFactor_ge (prior : Option CardProgress)
    (userID cardID : Nat) (performance : ℤ) (now : ℚ) :
    13/10 ≤ (UpdateCardProgress prior userID cardID performance now).EaseFactor := by
  rw [UpdateCardProgress_EaseFactor]
  exact updateEaseFactor_ge _ _

theorem applyGradings_foldl_ease (userID cardID : Nat) :
    ∀ (gs : List (ℤ × ℚ)) (acc : Option CardProgress) (r : CardProgress),
      gs.foldl (fun acc g => some (UpdateCardProgress acc userID cardID g.1 g.2)) acc
          = some r →
      13/10 ≤ r.EaseFactor ∨ acc = some r := by
  intro gs
  induction gs with
  | nil => intro acc r h; exact Or.inr h
  | cons g gs ih =>
    intro acc r h
    rcases ih _ r h with h1 | h2
    · exact Or.inl h1
    · left
      have : UpdateCardProgress acc userID cardID g.1 g.2 = r := Option.some.inj h2
      rw [← this]
      exact UpdateCardProgress_EaseFactor_ge _ _ _ _ _

theorem truncQ_eq_floor (q : ℚ) (h : 0 ≤ q) : truncQ q = ⌊q⌋ := by
  unfold truncQ
  exact if_pos h

theorem UpdateCardProgress_fail_eq (prior : Option CardProgress)
    (userID cardID : Nat) (performance : ℤ) (now : ℚ) (h : performance < 3) :
    UpdateCardProgress prior userID cardID performance now
      = { priorOf prior userID cardID with
          ReviewCount := (priorOf prior userID cardID).ReviewCount + 1
          LastReviewedAt := now
          EaseFactor := updateEaseFactor (priorOf prior userID cardID).EaseFactor performance
          Status := "learning"
          Interval := 1
          NextReviewDate := now + 1 } := by
  unfold UpdateCardProgress priorOf
  dsimp only
  rw [if_pos h, if_neg (not_le.mpr (by omega : performance < 3))]

theorem UpdateCardProgress_success_eq (prior : Option CardProgress)
    (userID cardID : Nat) (performance : ℤ) (now : ℚ) (h : ¬ performance < 3) :
    UpdateCardProgress prior userID cardID performance now
      = (let p := priorOf prior userID cardID
         let ef := updateEaseFactor p.EaseFactor performance
         let n : ℤ := if p.Interval = 0 then 1 else if p.Interval = 1 then 6
                      else truncQ ((p.Interval : ℚ) * ef)
         { p with
           ReviewCount := p.ReviewCount + 1
           CorrectCount := p.CorrectCount + 1
           LastReviewedAt := now
           EaseFactor := ef
           Status := if p.Status = "new" then "learning"
                     else if n > 21 then "review" else p.Status
           Interval := n
           NextReviewDate := now + (n : ℚ) }) := by
  unfold UpdateCardProgress priorOf
  dsimp only
  rw [if_neg h, if_pos (not_lt.mp h)]
  dsimp only
  split_ifs <;> rfl

/-! ### Claims about the grading state machine -/

/-- C1: the ease factor of the record returned by a grading event equals
`prior_ease + (0.1 - (5 - performance) * (0.08 + (5 - performance) * 0.02))`
clamped below at 1.3, for every prior record (or absence of one, whose
initial ease is 2.5) and every performance in [1,5]; consequently after any
number of grading events the persisted record has `ease_factor >= 1.3`. -/
theorem UpdateCardProgress_easeFactor_formula (prior : Option CardProgress)
    (userID cardID : Nat) (performance : ℤ) (now : ℚ)
    (h1 : 1 ≤ performance) (h5 : performance ≤ 5) :
    (UpdateCardProgress prior userID cardID performance now).EaseFactor
        = max ((priorOf prior userID cardID).EaseFactor
            + (1/10 - (5 - (performance : ℚ)) * (8/100 + (5 - (performance : ℚ)) * (2/100))))
          (13/10)
      ∧ (initialProgress userID cardID).EaseFactor = 5/2
      ∧ ∀ (gs : List (ℤ × ℚ)) (r : CardProgress),
          applyGradings userID cardID gs = some r → 13/10 ≤ r.EaseFactor := by
  refine ⟨?_, rfl, ?_⟩
  · rw [UpdateCardProgress_EaseFactor, updateEaseFactor_eq_max]
  · intro gs r h
    rcases applyGradings_foldl_ease userID cardID gs none r h with h1 | h2
    · exact h1
    · exact absurd h2 (by simp)

/-- Witness for C1 at `prior = none`, `performance = 3`. -/
theorem UpdateCardProgress_easeFactor_formula_witness :
    (1 : ℤ) ≤ 3 ∧ (3 : ℤ) ≤ 5 ∧
      ((UpdateCardProgress none 1 2 3 0).EaseFactor
          = max ((priorOf none 1 2).EaseFactor
              + (1/10 - (5 - ((3 : ℤ) : ℚ)) * (8/100 + (5 - ((3 : ℤ) : ℚ)) * (2/100))))
            (13/10)
        ∧ (initialProgress 1 2).EaseFactor = 5/2
        ∧ ∀ (gs : List (ℤ × ℚ)) (r : CardProgress),
            applyGradings 1 2 gs = some r → 13/10 ≤ r.EaseFactor) :=
  ⟨by decide, by decide,
    UpdateCardProgress_easeFactor_formula none 1 2 3 0 (by decide) (by decide)⟩

/-- C2: grading with performance < 3 yields `interval = 1` and
`status = "learning"`, regardless of the prior record (or absence of one). -/
theorem UpdateCardProgress_fail_resets (prior : Option CardProgress)
    (userID cardID : Nat) (performance : ℤ) (now : ℚ)
    (h1 : 1 ≤ performance) (h3 : performance < 3) :
    (UpdateCardProgress prior userID cardID performance now).Interval = 1
      ∧ (UpdateCardProgress prior userID cardID performance now).Status = "learning" := by
  unfold UpdateCardProgress
  dsimp only
  rw [if_pos h3]
  exact ⟨rfl, rfl⟩

/-- Witness for C2 at `performance = 2` against a review-status record. -/
theorem UpdateCardProgress_fail_resets_witness :
    (1 : ℤ) ≤ 2 ∧ (2 : ℤ) < 3 ∧
      ((UpdateCardProgress
          (some { UserID := 1, CardID := 2, EaseFactor := 5/2, Interval := 30,
                  NextReviewDate := 40, ReviewCount := 8, CorrectCount := 7,
                  LastReviewedAt := 10, Status := "review" }) 1 2 2 100).Interval = 1
        ∧ (UpdateCardProgress
            (some { UserID := 1, CardID := 2, EaseFactor := 5/2, Interval := 30,
                    NextReviewDate := 40, ReviewCount := 8, CorrectCount := 7,
                    LastReviewedAt := 10, Status := "review" }) 1 2 2 100).Status
            = "learning") :=
  ⟨by decide, by decide,
    UpdateCardProgress_fail_resets _ 1 2 2 100 (by decide) (by decide)⟩

/-- C3: grading with performance >= 3 maps a prior interval of 0 (including
the no-prior-record case) to 1, a prior interval of 1 to 6, and any other
(nonnegative) prior interval to `floor(prior_interval * ef')` with `ef'` the
freshly updated ease factor; the status becomes `"learning"` if it was
`"new"`, becomes `"review"` if (it was not `"new"` and) the new interval
exceeds 21, and is otherwise left unchanged. -/
theorem UpdateCardProgress_success_path (prior : Option CardProgress)
    (userID cardID : Nat) (performance : ℤ) (now : ℚ)
    (h3 : 3 ≤ performance) (h5 : performance ≤ 5)
    (hint : 0 ≤ (priorOf prior userID cardID).Interval) :
    (UpdateCardProgress prior userID cardID performance now).Interval
        = (if (priorOf prior userID cardID).Interval = 0 then 1
           else if (priorOf prior userID cardID).Interval = 1 then 6
           else ⌊((priorOf prior userID cardID).Interval : ℚ)
                  * (UpdateCardProgress prior userID cardID performance now).EaseFactor⌋)
      ∧ (UpdateCardProgress prior userID cardID performance now).Status
          = (if (priorOf prior userID cardID).Status = "new" then "learning"
             else if 21 < (UpdateCardProgress prior userID cardID performance now).Interval
             then "review"
             else (priorOf prior userID cardID).Status) := by
  have hnl : ¬ performance < 3 := not_lt.mpr h3
  have hef := UpdateCardProgress_EaseFactor prior userID cardID performance now
  rw [UpdateCardProgress_success_eq prior userID cardID performance now hnl] at hef ⊢
  dsimp only at hef ⊢
  set p := priorOf prior userID cardID with hp
  set ef := updateEaseFactor p.EaseFactor performance with hef2
  have hq : (0 : ℚ) ≤ (p.Interval : ℚ) * ef := by
    have h13 : (13:ℚ)/10 ≤ ef := updateEaseFactor_ge _ _
    have : (0:ℚ) ≤ (p.Interval : ℚ) := by exact_mod_cast hint
    nlinarith
  rw [hef, truncQ_eq_floor _ hq]
  exact ⟨rfl, rfl⟩

/-- The spec's worked scenario record: `ease_factor = 2.5, interval = 6`,
status `"learning"`. -/
def scenarioRecord : CardProgress :=
  { UserID := 1
    CardID := 2
    EaseFactor := 5/2
    Interval := 6
    NextReviewDate := 40
    ReviewCount := 3
    CorrectCount := 2
    LastReviewedAt := 10
    Status := "learning" }

/-- Witness for C3: the spec scenario `ease_factor = 2.5, interval = 6`
graded with performance 5 (new ease 2.6, new interval `floor(6*2.6) = 15`,
status unchanged). -/
theorem UpdateCardProgress_success_path_witness :
    (3 : ℤ) ≤ 5 ∧ (5 : ℤ) ≤ 5 ∧
      0 ≤ (priorOf (some scenarioRecord) 1 2).Interval ∧
      ((UpdateCardProgress (some scenarioRecord) 1 2 5 100).Interval
          = (if (priorOf (some scenarioRecord) 1 2).Interval = 0 then 1
             else if (priorOf (some scenarioRecord) 1 2).Interval = 1 then 6
             else ⌊((priorOf (some scenarioRecord) 1 2).Interval : ℚ)
                  * (UpdateCardProgress (some scenarioRecord) 1 2 5 100).EaseFactor⌋)
        ∧ (UpdateCardProgress (some scenarioRecord) 1 2 5 100).Status
            = (if (priorOf (some scenarioRecord) 1 2).Status = "new" then "learning"
               else if 21 < (UpdateCardProgress (some scenarioRecord) 1 2 5 100).Interval
               then "review"
               else (priorOf (some scenarioRecord) 1 2).Status)) :=
  ⟨by decide, by decide, by decide,
    UpdateCardProgress_success_path (some scenarioRecord) 1 2 5 100
      (by decide) (by decide) (by decide)⟩

/-- C7: every record returned by a grading event has `review_count > 0` and
status in {"learning", "review"} (for any prior record with a valid status,
or absence of one), and in particular its status is never `"new"`. -/
theorem UpdateCardProgress_status_after (prior : Option CardProgress)
    (userID cardID : Nat) (performance : ℤ) (now : ℚ)
    (h1 : 1 ≤ performance) (h5 : performance ≤ 5)
    (hrc : 0 ≤ (priorOf prior userID cardID).ReviewCount)
    (hst : (priorOf prior userID cardID).Status = "new"
      ∨ (priorOf prior userID cardID).Status = "learning"
      ∨ (priorOf prior userID cardID).Status = "review") :
    0 < (UpdateCardProgress prior userID cardID performance now).ReviewCount
      ∧ ((UpdateCardProgress prior userID cardID performance now).Status = "learning"
        ∨ (UpdateCardProgress prior userID cardID performance now).Status = "review")
      ∧ (UpdateCardProgress prior userID cardID performance now).Status ≠ "new" := by
  by_cases hlt : performance < 3
  · rw [UpdateCardProgress_fail_eq prior userID cardID performance now hlt]
    exact ⟨by dsimp only; omega, Or.inl rfl, by dsimp only; decide⟩
  · rw [UpdateCardProgress_success_eq prior userID cardID performance now hlt]
    dsimp only
    refine ⟨by omega, ?_⟩
    set p := priorOf prior userID cardID with hp
    set n := (if p.Interval = 0 then (1 : ℤ) else if p.Interval = 1 then 6
      else truncQ ((p.Interval : ℚ) * updateEaseFactor p.EaseFactor performance)) with hn
    split_ifs with hnew h21
    · exact ⟨Or.inl rfl, by decide⟩
    · exact ⟨Or.inr rfl, by decide⟩
    · rcases hst with h | h | h
      · exact absurd h hnew
      · exact ⟨Or.inl h, by rw [h]; decide⟩
      · exact ⟨Or.inr h, by rw [h]; decide⟩

/-- Witness for C7: first-ever grading (no prior record) with performance 3. -/
theorem UpdateCardProgress_status_after_witness :
    (1 : ℤ) ≤ 3 ∧ (3 : ℤ) ≤ 5 ∧ 0 ≤ (priorOf none 1 2).ReviewCount ∧
      ((priorOf none 1 2).Status = "new" ∨ (priorOf none 1 2).Status = "learning"
        ∨ (priorOf none 1 2).Status = "review") ∧
      (0 < (UpdateCardProgress none 1 2 3 0).ReviewCount
        ∧ ((UpdateCardProgress none 1 2 3 0).Status = "learning"
          ∨ (UpdateCardProgress none 1 2 3 0).Status = "review")
        ∧ (UpdateCardProgress none 1 2 3 0).Status ≠ "new") :=
  ⟨by decide, by decide, by decide, by decide,
    UpdateCardProgress_status_after none 1 2 3 0 (by decide) (by decide) (by decide)
      (by decide)⟩

/-- C10: for every prior record with nonnegative interval (or absence of one)
and every performance in [1,5], the returned record has `interval >= 1` and
`next_review_date = now + interval` days, hence strictly later than the
grading time. -/
theorem UpdateCardProgress_schedules_future (prior : Option CardProgress)
    (userID cardID : Nat) (performance : ℤ) (now : ℚ)
    (h1 : 1 ≤ performance) (h5 : performance ≤ 5)
    (hint : 0 ≤ (priorOf prior userID cardID).Interval) :
    1 ≤ (UpdateCardProgress prior userID cardID performance now).Interval
      ∧ (UpdateCardProgress prior userID cardID performance now).NextReviewDate
          = now + ((UpdateCardProgress prior userID cardID performance now).Interval : ℚ)
      ∧ now < (UpdateCardProgress prior userID cardID performance now).NextReviewDate := by
  by_cases hlt : performance < 3
  · rw [UpdateCardProgress_fail_eq prior userID cardID performance now hlt]
    refine ⟨by dsimp only; omega, by norm_num, by dsimp only; linarith⟩
  · rw [UpdateCardProgress_success_eq prior userID cardID performance now hlt]
    dsimp only
    set p := priorOf prior userID cardID with hp
    set ef := updateEaseFactor p.EaseFactor performance with hef2
    have h13 : (13:ℚ)/10 ≤ ef := updateEaseFactor_ge _ _
    have hn1 : 1 ≤ (if p.Interval = 0 then 1 else if p.Interval = 1 then 6
        else truncQ ((p.Interval : ℚ) * ef)) := by
      split_ifs with h0 hone
      · omega
      · omega
      · have hi2 : 2 ≤ p.Interval := by omega
        have hi2q : (2:ℚ) ≤ (p.Interval : ℚ) := by exact_mod_cast hi2
        have hq : (0:ℚ) ≤ (p.Interval : ℚ) * ef := by nlinarith
        rw [truncQ_eq_floor _ hq]
        rw [Int.le_floor]
        push_cast
        nlinarith
    refine ⟨hn1, rfl, ?_⟩
    have : (1:ℚ) ≤ ((if p.Interval = 0 then 1 else if p.Interval = 1 then 6
        else truncQ ((p.Interval : ℚ) * ef) : ℤ) : ℚ) := by exact_mod_cast hn1
    linarith

/-- Witness for C10: first-ever grading with a failing performance 1. -/
theorem UpdateCardProgress_schedules_future_witness :
    (1 : ℤ) ≤ 1 ∧ (1 : ℤ) ≤ 5 ∧ 0 ≤ (priorOf none 1 2).Interval ∧
      (1 ≤ (UpdateCardProgress none 1 2 1 0).Interval
        ∧ (UpdateCardProgress none 1 2 1 0).NextReviewDate
            = 0 + ((UpdateCardProgress none 1 2 1 0).Interval : ℚ)
        ∧ (0 : ℚ) < (UpdateCardProgress none 1 2 1 0).NextReviewDate) :=
  ⟨by decide, by decide, by decide,
    UpdateCardProgress_schedules_future none 1 2 1 0 (by decide) (by decide) (by decide)⟩

/-! ### Helper lemmas about the selector -/

def batchCards : GetNextCardsResult → List BatchEntry
  | .emptyDeck _ => []
  | .batch cs _ _ _ => cs

theorem selectLoop_length (mk : FlashCard → BatchEntry) :
    ∀ (cs : List FlashCard) (rem : ℤ),
      ((selectLoop mk cs rem).1.length : ℤ) ≤ max rem 0
        ∧ (selectLoop mk cs rem).2 = rem - (selectLoop mk cs rem).1.length := by
  intro cs
  induction cs with
  | nil =>
    intro rem
    refine ⟨?_, ?_⟩
    · simp [selectLoop]
    · simp [selectLoop]
  | cons c cs ih =>
    intro rem
    by_cases h : rem ≤ 0
    · refine ⟨?_, ?_⟩
      · simp [selectLoop, if_pos h]
      · simp [selectLoop, if_pos h]
    · have hmax : max (rem - 1) 0 = rem - 1 := max_eq_left (by omega)
      have hmax2 : max rem 0 = rem := max_eq_left (by omega)
      rcases ih (rem - 1) with ⟨h1, h2⟩
      rw [hmax] at h1
      refine ⟨?_, ?_⟩
      · simp only [selectLoop, if_neg h, List.length_cons]
        rw [hmax2]
        push_cast
        omega
      · simp only [selectLoop, if_neg h, List.length_cons, h2]
        push_cast
        ring

theorem selectLoop_mem (mk : FlashCard → BatchEntry) :
    ∀ (cs : List FlashCard) (rem : ℤ) (e : BatchEntry),
      e ∈ (selectLoop mk cs rem).1 → ∃ c ∈ cs, e = mk c := by
  intro cs
  induction cs with
  | nil => intro rem e h; simp [selectLoop] at h
  | cons c cs ih =>
    intro rem e h
    by_cases hr : rem ≤ 0
    · simp only [selectLoop, if_pos hr] at h
      simp at h
    · simp only [selectLoop, if_neg hr] at h
      rcases List.mem_cons.mp h with h1 | h1
      · exact ⟨c, List.mem_cons_self _ _, h1⟩
      · rcases ih (rem - 1) e h1 with ⟨c2, hc2, he⟩
        exact ⟨c2, List.mem_cons_of_mem _ hc2, he⟩


/-- C9: for a deck containing zero cards, batch selection returns the
successful empty-batch result with the "No cards in this deck" message,
independently of the progress records (none is read) and of the limit. -/
theorem GetNextCards_empty_deck (progresses : List CardProgress)
    (reqLimit : ℤ) (now : ℚ) :
    GetNextCards [] progresses reqLimit now
      = GetNextCardsResult.emptyDeck "No cards in this deck" := rfl

/-- C5: the batch returned by `GetNextCards` holds at most `limit` cards
(with `limit <= 0` treated as 20), all due-bucket entries precede all
new-bucket entries, and no learning-bucket card ever appears in it. -/
theorem GetNextCards_batch_shape (cards : List FlashCard)
    (progresses : List CardProgress) (reqLimit : ℤ) (now : ℚ) :
    ((batchCards (GetNextCards cards progresses reqLimit now)).length : ℤ)
        ≤ (if reqLimit ≤ 0 then 20 else reqLimit)
      ∧ (∃ d n, batchCards (GetNextCards cards progresses reqLimit now) = d ++ n
          ∧ (∀ e ∈ d, e.status = "due") ∧ (∀ e ∈ n, e.status = "new"))
      ∧ ∀ e ∈ batchCards (GetNextCards cards progresses reqLimit now),
          bucketOf (buildProgressMap progresses) now e.card ≠ "learning" := by
  unfold GetNextCards
  dsimp only
  set limit : ℤ := if reqLimit ≤ 0 then 20 else reqLimit with hlim
  have hpos : 0 < limit := by
    rw [hlim]; split_ifs with h <;> omega
  by_cases hc : cards = []
  · rw [if_pos hc]
    refine ⟨by simp [batchCards]; omega, ⟨[], [], by simp [batchCards]⟩, by simp [batchCards]⟩
  · rw [if_neg hc]
    set pm := buildProgressMap progresses with hpm
    set dueCards := cards.filter (fun c => bucketOf pm now c = "due") with hdue
    set newCards := cards.filter (fun c => bucketOf pm now c = "new") with hnew
    set dueSel := selectLoop (fun c => ⟨c, pm c.ID, "due"⟩) dueCards limit with hds
    set newSel := selectLoop (fun c => ⟨c, none, "new"⟩) newCards dueSel.2 with hns
    have hd := selectLoop_length (fun c => ⟨c, pm c.ID, "due"⟩) dueCards limit
    have hn := selectLoop_length (fun c => ⟨c, none, "new"⟩) newCards dueSel.2
    rw [← hds] at hd
    rw [← hns] at hn
    refine ⟨?_, ?_, ?_⟩
    · simp only [batchCards, List.length_append]
      rcases hd with ⟨hd1, hd2⟩
      rcases hn with ⟨hn1, hn2⟩
      rw [max_eq_left (le_of_lt hpos)] at hd1
      push_cast
      rw [hd2] at hn1
      rcases le_or_lt (limit - dueSel.1.length) 0 with hr | hr
      · rw [max_eq_right hr] at hn1
        omega
      · rw [max_eq_left (le_of_lt hr)] at hn1
        omega
    · refine ⟨dueSel.1, newSel.1, rfl, ?_, ?_⟩
      · intro e he
        rcases selectLoop_mem _ _ _ _ he with ⟨c2, _, he2⟩
        rw [he2]
      · intro e he
        rcases selectLoop_mem _ _ _ _ he with ⟨c2, _, he2⟩
        rw [he2]
    · intro e he
      simp only [batchCards, List.mem_append] at he
      rcases he with he | he
      · rcases selectLoop_mem _ _ _ _ he with ⟨c2, hc2, he2⟩
        rw [hdue] at hc2
        have := (List.mem_filter.mp hc2).2
        rw [he2]
        dsimp only
        intro hcon
        rw [hcon] at this
        simp at this
      · rcases selectLoop_mem _ _ _ _ he with ⟨c2, hc2, he2⟩
        rw [hnew] at hc2
        have := (List.mem_filter.mp hc2).2
        rw [he2]
        dsimp only
        intro hcon
        rw [hcon] at this
        simp at this


/-- Witness for C5 at a one-card deck with no progress records and the
default limit (requested limit 0). -/
theorem GetNextCards_batch_shape_witness :
    ((batchCards (GetNextCards [⟨3⟩] [] 0 0)).length : ℤ)
        ≤ (if (0 : ℤ) ≤ 0 then 20 else (0 : ℤ))
      ∧ (∃ d n, batchCards (GetNextCards [⟨3⟩] [] 0 0) = d ++ n
          ∧ (∀ e ∈ d, e.status = "due") ∧ (∀ e ∈ n, e.status = "new"))
      ∧ ∀ e ∈ batchCards (GetNextCards [⟨3⟩] [] 0 0),
          bucketOf (buildProgressMap []) 0 e.card ≠ "learning" :=
  GetNextCards_batch_shape [⟨3⟩] [] 0 0

/-- A record whose `next_review_date` (instant 5) equals "now" exactly. -/
def probeProgress : CardProgress :=
  { UserID := 1
    CardID := 7
    EaseFactor := 5/2
    Interval := 3
    NextReviewDate := 5
    ReviewCount := 2
    CorrectCount := 1
    LastReviewedAt := 2
    Status := "learning" }

/-- The card `probeProgress` tracks. -/
def probeCard : FlashCard := ⟨7⟩

/-- C4 counterexample: with `now = 5` and a record whose `next_review_date`
is exactly 5 (so `next_review_date <= now`), the code buckets the card
`"learning"`, not `"due"` (`NextReviewDate.Before(now)` is strict), and the
returned batch is empty with `learning_count = 1`. -/
theorem GetNextCards_due_boundary_counterexample :
    probeProgress.NextReviewDate ≤ 5
      ∧ buildProgressMap [probeProgress] probeCard.ID = some probeProgress
      ∧ bucketOf (buildProgressMap [probeProgress]) 5 probeCard ≠ "due"
      ∧ bucketOf (buildProgressMap [probeProgress]) 5 probeCard = "learning"
      ∧ GetNextCards [probeCard] [probeProgress] 20 5
          = GetNextCardsResult.batch [] 0 0 1 := by
  refine ⟨by norm_num [probeProgress], rfl, by decide, rfl, rfl⟩

/-- C4 amended: every card is classified into exactly one bucket — no
record → `"new"`; a record with `next_review_date` strictly before `now` →
`"due"`; a record with `next_review_date >= now` (equality included) →
`"learning"`. -/
theorem bucketOf_characterization (progresses : List CardProgress) (now : ℚ)
    (c : FlashCard) :
    (buildProgressMap progresses c.ID = none
        → bucketOf (buildProgressMap progresses) now c = "new")
      ∧ ∀ p, buildProgressMap progresses c.ID = some p →
          ((bucketOf (buildProgressMap progresses) now c = "due"
              ↔ p.NextReviewDate < now)
            ∧ (bucketOf (buildProgressMap progresses) now c = "learning"
              ↔ now ≤ p.NextReviewDate)) := by
  unfold bucketOf
  constructor
  · intro h
    rw [h]
  · intro p h
    rw [h]
    dsimp only
    split_ifs with hlt
    · constructor
      · exact ⟨fun _ => hlt, fun _ => rfl⟩
      · constructor
        · intro hcon; exact absurd hcon (by decide)
        · intro hle; exact absurd hlt (not_lt.mpr hle)
    · constructor
      · constructor
        · intro hcon; exact absurd hcon (by decide)
        · intro hltc; exact absurd hltc hlt
      · exact ⟨fun _ => not_lt.mp hlt, fun _ => rfl⟩

/-- Witness for the amended C4 at the boundary input (`next_review_date`
equal to `now`): the card is bucketed `"learning"`, not `"due"`. -/
theorem bucketOf_characterization_witness :
    buildProgressMap [probeProgress] probeCard.ID = some probeProgress
      ∧ (bucketOf (buildProgressMap [probeProgress]) 5 probeCard = "due"
          ↔ probeProgress.NextReviewDate < 5)
      ∧ (bucketOf (buildProgressMap [probeProgress]) 5 probeCard = "learning"
          ↔ 5 ≤ probeProgress.NextReviewDate) :=
  ⟨rfl,
    ((bucketOf_characterization [probeProgress] 5 probeCard).2 probeProgress rfl).1,
    ((bucketOf_characterization [probeProgress] 5 probeCard).2 probeProgress rfl).2⟩


/-- A progress record in deck 1 (card 1), last reviewed on day 0. -/
def statsRecord1 : CardProgress :=
  { UserID := 1
    CardID := 1
    EaseFactor := 2
    Interval := 1
    NextReviewDate := 1
    ReviewCount := 2
    CorrectCount := 1
    LastReviewedAt := 0
    Status := "learning" }

/-- A progress record in deck 2 (card 2), also last reviewed on day 0. -/
def statsRecord2 : CardProgress :=
  { UserID := 1
    CardID := 2
    EaseFactor := 2
    Interval := 1
    NextReviewDate := 1
    ReviewCount := 4
    CorrectCount := 4
    LastReviewedAt := 0
    Status := "review" }

/-- Card id → deck id mapping with card 1 in deck 1 and card 2 in deck 2. -/
def deckOfProbe : Nat → Nat := fun id => id

/-- C8 (code bug): on a user with one progress record that has 2 reviews and
1 correct, the returned summary has `total_reviewed = 0` and `accuracy = 0`,
because by the time the `SUM` scans run the shared GORM statement has
accumulated all three contradictory status conditions; the intended sum of
review counts over the records is 2 > 0 and the intended accuracy is
`1/2 * 100 = 50`, so the `totalReviewed > 0` ratio branch is unreachable. -/
theorem GetStudyStats_accuracy_bug :
    (GetStudyStats [statsRecord1] deckOfProbe 0 0).total_reviewed = 0
      ∧ (GetStudyStats [statsRecord1] deckOfProbe 0 0).accuracy = 0
      ∧ ([statsRecord1].map (fun p => p.ReviewCount)).sum = 2
      ∧ ((([statsRecord1].map (fun p => p.CorrectCount)).sum : ℚ)
            / (([statsRecord1].map (fun p => p.ReviewCount)).sum : ℚ) * 100 = 50) := by
  refine ⟨rfl, rfl, rfl, ?_⟩
  norm_num [statsRecord1]

/-- C6 (code bug): with the deck filter `deck 1` supplied, the returned
`learning_count` is 0 although deck 1 holds exactly one learning-status
record (the learning query runs with `status = 'new'` already accumulated on
the shared GORM statement), and `daily_activity` reports 2 reviews on day 0
although deck 1's records account for only 1 (the raw activity query has no
deck join) — so neither component is computed only over deck 1's records. -/
theorem GetStudyStats_deck_filter_bug :
    (GetStudyStats [statsRecord1, statsRecord2] deckOfProbe 1 0).learning_count = 0
      ∧ ([statsRecord1, statsRecord2].filter
            (fun p => deckOfProbe p.CardID = 1 ∧ p.Status = "learning")).length = 1
      ∧ (GetStudyStats [statsRecord1, statsRecord2] deckOfProbe 1 0).daily_activity
          = [⟨0, 2⟩]
      ∧ (dailyActivity
            ([statsRecord1, statsRecord2].filter (fun p => deckOfProbe p.CardID = 1))
            ((⌊(0 : ℚ)⌋ - 7 : ℤ) : ℚ)) = [⟨0, 1⟩] := by
  exact ⟨rfl, rfl, rfl, rfl⟩

end QuizGo
